import Mathlib

/-!
Shallow embedding of `tensorflow_transform/tf_metadata/dataset_schema.py`:
an in-memory representation of the schema of a dataset, together with the
converters between schemas and feature specs (parser descriptors) and the
inference of a column schema from a runtime tensor.

Python exceptions are modelled by an explicit error type; every function
that can raise returns `Except PyError _`.  Python dicts are modelled as
insertion-ordered association lists with unique keys (uniqueness is a
hypothesis where a theorem needs it).
-/

/-- The dtype universe the module manipulates: the tags enumerated in
`_BOOL_TYPES`, `_INT_TYPES`, `_FLOAT_TYPES`, `_STRING_TYPES`, plus
`complex64` as a representative of a tag outside all four families. -/
inductive DType
  | bool
  | int8
  | uint8
  | uint16
  | int16
  | int32
  | int64
  | float16
  | float32
  | float64
  | string
  | complex64
deriving DecidableEq

/-- The name of a dtype, as used when formatting error messages. -/
def DType.name : DType → String
  | .bool => "bool"
  | .int8 => "int8"
  | .uint8 => "uint8"
  | .uint16 => "uint16"
  | .int16 => "int16"
  | .int32 => "int32"
  | .int64 => "int64"
  | .float16 => "float16"
  | .float32 => "float32"
  | .float64 => "float64"
  | .string => "string"
  | .complex64 => "complex64"

/-- The `tf.DType.is_integer`: true exactly for the signed/unsigned integer tags. -/
def DType.is_integer : DType → Bool
  | .int8 | .uint8 | .uint16 | .int16 | .int32 | .int64 => true
  | _ => false

/-- The `tf.DType.is_floating`: true exactly for the floating tags. -/
def DType.is_floating : DType → Bool
  | .float16 | .float32 | .float64 => true
  | _ => false

/-- The Python exceptions the module can raise. -/
inductive PyError
  | valueError (msg : String)
  | typeError (msg : String)
  | notImplementedError (msg : String)
deriving DecidableEq

deriving instance DecidableEq for Except

/-- An opaque scalar/structured Python value used for `default_value`;
the module only passes it through, never inspects it. -/
inductive PyValue
  | intVal (i : Int)
  | strVal (s : String)
  | listVal (l : List Int)
deriving DecidableEq

/-- The `Domain` and its four concrete subclasses (`FloatDomain`, `IntDomain`,
`StringDomain`, `BoolDomain`), each carrying the underlying dtype.
Python equality is: same class and same dtype, i.e. structural equality. -/
inductive Domain
  | floatDomain (dtype : DType)
  | intDomain (dtype : DType)
  | stringDomain (dtype : DType)
  | boolDomain (dtype : DType)
deriving DecidableEq

/-- The `dtype` property of a `Domain`. -/
def Domain.dtype : Domain → DType
  | .floatDomain d | .intDomain d | .stringDomain d | .boolDomain d => d

/-- The `dtype_to_domain` (module-level public converter, lines 193-202). -/
def dtype_to_domain (dtype : DType) : Except PyError Domain :=
  if dtype.is_integer then .ok (.intDomain dtype)
  else if dtype.is_floating then .ok (.floatDomain dtype)
  else if dtype = .string then .ok (.stringDomain dtype)
  else if dtype = .bool then .ok (.boolDomain dtype)
  else .error (.valueError ("Schema cannot accommodate dtype: " ++ dtype.name))

/-- The `_dtype_to_domain` (internal converter used by all converters,
lines 452-463), written with the explicit membership lists of the source. -/
def _dtype_to_domain (dtype : DType) : Except PyError Domain :=
  if dtype ∈ [DType.bool] then .ok (.boolDomain dtype)
  else if dtype ∈ [DType.int8, DType.uint8, DType.uint16, DType.int16,
                   DType.int32, DType.int64] then .ok (.intDomain dtype)
  else if dtype ∈ [DType.string] then .ok (.stringDomain dtype)
  else if dtype ∈ [DType.float16, DType.float32, DType.float64] then
    .ok (.floatDomain dtype)
  else
    .error (.valueError ("DatasetSchema does not yet support dtype: " ++ dtype.name))

/-- The `Axis`: one dimension; `size = none` means unknown. -/
structure Axis where
  size : Option Nat
deriving DecidableEq

/-- The `LogicalShape`: `axes = none` means completely unknown rank. -/
structure LogicalShape where
  axes : Option (List Axis)
deriving DecidableEq

/-- The `LogicalShape.tf_shape`: the shape as an ordered sequence of optional
sizes, `none` standing for `TensorShape(None)` (unknown rank). -/
def LogicalShape.tf_shape (s : LogicalShape) : Option (List (Option Nat)) :=
  s.axes.map (fun axes => axes.map Axis.size)

/-- The `TensorShape.as_list()` of `tf_shape()`; only called by the source under
guards that ensure the rank is known. -/
def LogicalShape.tf_shape_as_list (s : LogicalShape) : List (Option Nat) :=
  s.tf_shape.getD []

/-- The `LogicalShape.is_fixed_size`: axes present and every size known. -/
def LogicalShape.is_fixed_size (s : LogicalShape) : Bool :=
  match s.axes with
  | none => false
  | some axes => axes.all (fun axis => axis.size.isSome)

/-- The `LogicalColumnSchema`: a domain paired with a logical shape. -/
structure LogicalColumnSchema where
  domain : Domain
  shape : LogicalShape
deriving DecidableEq

/-- The `SparseIndexField`: name plus sortedness flag. -/
structure SparseIndexField where
  name : String
  is_sorted : Bool
deriving DecidableEq

/-- The closed set of `ColumnRepresentation` subclasses:
`FixedColumnRepresentation`, `ListColumnRepresentation`,
`SparseColumnRepresentation`, each with its constructor fields. -/
inductive ColumnRepresentation
  | fixed (default_value : Option PyValue)
  | list
  | sparse (value_field_name : String) (index_fields : List SparseIndexField)
deriving DecidableEq

/-- The feature-spec (parser descriptor) union: `tf.FixedLenFeature`,
`tf.VarLenFeature`, `tf.SparseFeature`, `tf.FixedLenSequenceFeature`. -/
inductive FeatureSpec
  | fixedLenFeature (shape : List (Option Nat)) (dtype : DType)
      (default_value : Option PyValue)
  | varLenFeature (dtype : DType)
  | sparseFeature (index_key : String) (value_key : String) (dtype : DType)
      (size : Option Nat) (already_sorted : Bool)
  | fixedLenSequenceFeature (shape : List (Option Nat)) (dtype : DType)
deriving DecidableEq

/-- The `FixedColumnRepresentation.as_feature_spec` (lines 294-300). -/
def FixedColumnRepresentation.as_feature_spec (default_value : Option PyValue)
    (logical_column : LogicalColumnSchema) : Except PyError FeatureSpec :=
  if ¬ logical_column.shape.is_fixed_size then
    .error (.valueError
      "A column of unknown size cannot be represented as fixed-size.")
  else
    .ok (.fixedLenFeature logical_column.shape.tf_shape_as_list
      logical_column.domain.dtype default_value)

/-- The `ListColumnRepresentation.as_feature_spec` (lines 316-317). -/
def ListColumnRepresentation.as_feature_spec
    (logical_column : LogicalColumnSchema) : Except PyError FeatureSpec :=
  .ok (.varLenFeature logical_column.domain.dtype)

/-- The `SparseColumnRepresentation.as_feature_spec` (lines 342-351).  The
source evaluates `len(ind) != 1 or len(logical_column.shape.axes) != 1`
left to right; when `axes` is absent (`None`), `len(None)` raises a
`TypeError` before the `ValueError` can be reached. -/
def SparseColumnRepresentation.as_feature_spec (value_field_name : String)
    (index_fields : List SparseIndexField)
    (logical_column : LogicalColumnSchema) : Except PyError FeatureSpec :=
  if index_fields.length ≠ 1 then
    .error (.valueError "tf.Example parser supports only 1-d sparse features.")
  else
    match logical_column.shape.axes with
    | none => .error (.typeError "object of type NoneType has no len")
    | some axes =>
      if axes.length ≠ 1 then
        .error (.valueError
          "tf.Example parser supports only 1-d sparse features.")
      else
        .ok (.sparseFeature ((index_fields.headD ⟨"", false⟩).name)
          value_field_name logical_column.domain.dtype
          ((axes.headD ⟨none⟩).size)
          ((index_fields.headD ⟨"", false⟩).is_sorted))

/-- The `ColumnSchema`: logical column plus representation. -/
structure ColumnSchema where
  logical_column : LogicalColumnSchema
  representation : ColumnRepresentation
deriving DecidableEq

/-- The `ColumnSchema.as_feature_spec`: dynamic dispatch on the representation
subclass (line 107-116 delegating to the subclasses). -/
def ColumnSchema.as_feature_spec (c : ColumnSchema) : Except PyError FeatureSpec :=
  match c.representation with
  | .fixed default_value =>
      FixedColumnRepresentation.as_feature_spec default_value c.logical_column
  | .list => ListColumnRepresentation.as_feature_spec c.logical_column
  | .sparse value_field_name index_fields =>
      SparseColumnRepresentation.as_feature_spec value_field_name index_fields
        c.logical_column

/-- The `ColumnSchema.merge` (lines 126-127): unconditionally raises. -/
def ColumnSchema.merge (_self _other : ColumnSchema) :
    Except PyError ColumnSchema :=
  .error (.notImplementedError "Merge not implemented yet.")

/-- The `Schema`: a dict from column names to `ColumnSchema`s, modelled as an
insertion-ordered association list. -/
structure Schema where
  column_schemas : List (String × ColumnSchema)
deriving DecidableEq

/-- The loop body of `Schema.merge` (lines 51-57): iterate over `other`
in order; a key already present triggers `ColumnSchema.merge` (which
raises), a fresh key is inserted at the end. -/
def Schema.mergeGo : List (String × ColumnSchema) →
    List (String × ColumnSchema) → Except PyError (List (String × ColumnSchema))
  | acc, [] => .ok acc
  | acc, (key, value) :: rest =>
    match acc.lookup key with
    | some existing =>
      match existing.merge value with
      | .error e => .error e
      | .ok _ => Schema.mergeGo acc rest
    | none => Schema.mergeGo (acc ++ [(key, value)]) rest

/-- The `Schema.merge` (lines 51-57). -/
def Schema.merge (s other : Schema) : Except PyError Schema :=
  (Schema.mergeGo s.column_schemas other.column_schemas).map Schema.mk

/-- The dict comprehension of `Schema.as_feature_spec` (lines 60-70):
convert each column in order, propagating the first exception. -/
def Schema.featureSpecEntries : List (String × ColumnSchema) →
    Except PyError (List (String × FeatureSpec))
  | [] => .ok []
  | (key, column_schema) :: rest =>
    match column_schema.as_feature_spec with
    | .error e => .error e
    | .ok fs =>
      match Schema.featureSpecEntries rest with
      | .error e => .error e
      | .ok tail => .ok ((key, fs) :: tail)

/-- The `Schema.as_feature_spec` (lines 60-70). -/
def Schema.as_feature_spec (s : Schema) :
    Except PyError (List (String × FeatureSpec)) :=
  Schema.featureSpecEntries s.column_schemas

/-- The `_tf_shape_to_logical_shape` (lines 466-492).  `tf_shape = none`
models `TensorShape(None)` (unknown rank, `dims is None`). -/
def _tf_shape_to_logical_shape (tf_shape : Option (List (Option Nat)))
    (remove_batch_dimension : Bool := false) : Except PyError LogicalShape :=
  match tf_shape with
  | none => .ok ⟨none⟩
  | some dims =>
    let axes := dims.map Axis.mk
    if remove_batch_dimension then
      if axes.length < 1 then
        .error (.valueError "Expected tf_shape to have rank >= 1")
      else
        .ok ⟨some axes.tail⟩
    else
      .ok ⟨some axes⟩

/-- The `_from_parse_feature` (lines 381-421).  Exception propagation from
`_dtype_to_domain` / `_tf_shape_to_logical_shape` is written as an
explicit match on their results. -/
def _from_parse_feature (parse_feature : FeatureSpec) :
    Except PyError ColumnSchema :=
  match parse_feature with
  | .fixedLenFeature shape dtype default_value =>
      match _dtype_to_domain dtype with
      | .error e => .error e
      | .ok domain =>
        match _tf_shape_to_logical_shape (some shape) with
        | .error e => .error e
        | .ok logical_shape =>
            .ok ⟨⟨domain, logical_shape⟩, .fixed default_value⟩
  | .fixedLenSequenceFeature _ _ =>
      .error (.valueError
        "DatasetSchema does not support FixedLenSequenceFeature yet.")
  | .varLenFeature dtype =>
      match _dtype_to_domain dtype with
      | .error e => .error e
      | .ok domain => .ok ⟨⟨domain, ⟨some [⟨none⟩]⟩⟩, .list⟩
  | .sparseFeature index_key value_key dtype size already_sorted =>
      match _dtype_to_domain dtype with
      | .error e => .error e
      | .ok domain =>
          .ok ⟨⟨domain, ⟨some [⟨size⟩]⟩⟩,
            .sparse value_key [⟨index_key, already_sorted⟩]⟩

/-- The dict comprehension of `from_feature_spec` (lines 364-378). -/
def fromFeatureSpecEntries : List (String × FeatureSpec) →
    Except PyError (List (String × ColumnSchema))
  | [] => .ok []
  | (key, parse_feature) :: rest =>
    match _from_parse_feature parse_feature with
    | .error e => .error e
    | .ok c =>
      match fromFeatureSpecEntries rest with
      | .error e => .error e
      | .ok tail => .ok ((key, c) :: tail)

/-- The `from_feature_spec` (lines 364-378). -/
def from_feature_spec (feature_spec : List (String × FeatureSpec)) :
    Except PyError Schema :=
  (fromFeatureSpecEntries feature_spec).map Schema.mk

/-- A runtime tensor, as far as the module inspects it: either a
`tf.SparseTensor` (dtype plus declared dense shape, the latter never read
by the module) or a dense tensor (dtype plus `get_shape()`). -/
inductive Tensor
  | sparse (dtype : DType) (dense_shape : List (Option Nat))
  | dense (dtype : DType) (shape : Option (List (Option Nat)))
deriving DecidableEq

/-- The `infer_column_schema_from_tensor` (lines 424-443). -/
def infer_column_schema_from_tensor (tensor : Tensor) :
    Except PyError ColumnSchema :=
  match tensor with
  | .sparse dtype _ =>
      match _dtype_to_domain dtype with
      | .error e => .error e
      | .ok domain => .ok ⟨⟨domain, ⟨some [⟨none⟩]⟩⟩, .list⟩
  | .dense dtype shape =>
      match _dtype_to_domain dtype with
      | .error e => .error e
      | .ok domain =>
        match _tf_shape_to_logical_shape shape true with
        | .error e => .error e
        | .ok logical_shape => .ok ⟨⟨domain, logical_shape⟩, .fixed none⟩

/-- The shape-side precondition of each representation variant: a Fixed
column needs a fixed-size shape, a List column the single unknown axis
(the only shape `from_feature_spec` can produce for it), and a Sparse
column exactly one index field and exactly one axis. -/
def ColumnRepresentation.shape_precond :
    ColumnRepresentation → LogicalShape → Bool
  | .fixed _, shape => shape.is_fixed_size
  | .list, shape => decide (shape = ⟨some [⟨none⟩]⟩)
  | .sparse _ index_fields, shape =>
      decide (index_fields.length = 1) && shape.axes.isSome &&
      decide ((shape.axes.getD []).length = 1)

/-- The per-column precondition under which the feature-spec round trip is
lossless: the domain is the one `_dtype_to_domain` rebuilds from its
dtype, and the shape satisfies the representation's precondition. -/
def ColumnSchema.round_trip_precond (c : ColumnSchema) : Bool :=
  decide (_dtype_to_domain c.logical_column.domain.dtype =
      .ok c.logical_column.domain) &&
  c.representation.shape_precond c.logical_column.shape

/-- C9: the public `dtype_to_domain` and the internal `_dtype_to_domain`
are equivalent: for every dtype they either both fail or both succeed
with equal `Domain` values. -/
theorem dtype_to_domain_equiv (dtype : DType) :
    (dtype_to_domain dtype).toOption = (_dtype_to_domain dtype).toOption := by
  cases dtype <;> rfl

/-- C8: inferring a column schema from a dense tensor of dtype `int32` and
shape `[batch, 3]` yields an `int32` integer domain, the single fixed axis
of size 3 (the leading batch axis dropped), and a Fixed representation
with default value `None`. -/
theorem infer_dense_int32_batch_3 (batch : Option Nat) :
    infer_column_schema_from_tensor (.dense .int32 (some [batch, some 3])) =
      .ok ⟨⟨.intDomain .int32, ⟨some [⟨some 3⟩]⟩⟩, .fixed none⟩ := rfl

/-- C10: the parser descriptor of a List representation depends only on the
logical column's domain: equal domains give equal descriptors whatever the
shapes. -/
theorem list_as_feature_spec_domain_only (l1 l2 : LogicalColumnSchema)
    (h : l1.domain = l2.domain) :
    ListColumnRepresentation.as_feature_spec l1 =
      ListColumnRepresentation.as_feature_spec l2 := by
  unfold ListColumnRepresentation.as_feature_spec
  rw [h]

theorem list_as_feature_spec_domain_only_witness :
    ListColumnRepresentation.as_feature_spec
        ⟨.intDomain .int64, ⟨some [⟨some 5⟩]⟩⟩ =
      ListColumnRepresentation.as_feature_spec ⟨.intDomain .int64, ⟨none⟩⟩ :=
  list_as_feature_spec_domain_only ⟨.intDomain .int64, ⟨some [⟨some 5⟩]⟩⟩
    ⟨.intDomain .int64, ⟨none⟩⟩ (by decide)

/-- C2: `_tf_shape_to_logical_shape` with `remove_batch_dimension = true`
raises only for known rank 0; an unknown-rank shape is returned unchanged
as the unknown logical shape (no error, contrary to the function's own
docstring), and a shape of rank at least 1 loses its first axis. -/
theorem tf_shape_to_logical_shape_drop_behavior :
    _tf_shape_to_logical_shape none true = .ok ⟨none⟩ ∧
    _tf_shape_to_logical_shape (some []) true =
      .error (.valueError "Expected tf_shape to have rank >= 1") ∧
    ∀ d ds, _tf_shape_to_logical_shape (some (d :: ds)) true =
      .ok ⟨some (ds.map Axis.mk)⟩ := by
  refine ⟨rfl, rfl, fun d ds => ?_⟩
  unfold _tf_shape_to_logical_shape
  simp

/-- C7 counterexample: a sparse tensor whose dtype is outside the four
supported families makes `infer_column_schema_from_tensor` raise instead
of returning a List-represented column schema. -/
theorem infer_sparse_unsupported_dtype :
    infer_column_schema_from_tensor (.sparse .complex64 [some 10]) =
      .error (.valueError
        "DatasetSchema does not yet support dtype: complex64") := rfl

/-- C7 (amended): for a sparse tensor whose dtype is supported, inference
returns a List representation with a single unknown axis, ignoring the
declared dense shape; and no tensor ever infers to a Sparse
representation. -/
theorem infer_sparse_tensor_list (dtype : DType)
    (dense_shape : List (Option Nat)) (domain : Domain)
    (h : _dtype_to_domain dtype = .ok domain) :
    infer_column_schema_from_tensor (.sparse dtype dense_shape) =
      .ok ⟨⟨domain, ⟨some [⟨none⟩]⟩⟩, .list⟩ ∧
    ∀ t c, infer_column_schema_from_tensor t = .ok c →
      ∀ v ind, c.representation ≠ .sparse v ind := by
  constructor
  · simp only [infer_column_schema_from_tensor, h]
  · intro t c hc v ind
    cases t with
    | sparse dtype2 ds =>
      simp only [infer_column_schema_from_tensor] at hc
      cases h2 : _dtype_to_domain dtype2 with
      | error e => rw [h2] at hc; exact absurd hc (by simp)
      | ok d =>
        rw [h2] at hc
        simp only [Except.ok.injEq] at hc
        rw [← hc]
        simp
    | dense dtype2 shape =>
      simp only [infer_column_schema_from_tensor] at hc
      cases h2 : _dtype_to_domain dtype2 with
      | error e => rw [h2] at hc; exact absurd hc (by simp)
      | ok d =>
        rw [h2] at hc
        cases h3 : _tf_shape_to_logical_shape shape true with
        | error e => rw [h3] at hc; exact absurd hc (by simp)
        | ok ls =>
          rw [h3] at hc
          simp only [Except.ok.injEq] at hc
          rw [← hc]
          simp

theorem infer_sparse_tensor_list_witness :
    infer_column_schema_from_tensor (.sparse .int64 [some 7]) =
      .ok ⟨⟨.intDomain .int64, ⟨some [⟨none⟩]⟩⟩, .list⟩ :=
  (infer_sparse_tensor_list .int64 [some 7] (.intDomain .int64) (by decide)).1

/-- C4 counterexample: with exactly one index field but an unknown-rank
shape (absent axes), `SparseColumnRepresentation.as_feature_spec` fails
with a TypeError (from `len(None)`), not with the 1-d-sparse ValueError
the claim promises for every non-(one index, one axis) input. -/
theorem sparse_as_feature_spec_unknown_rank_typeerror :
    SparseColumnRepresentation.as_feature_spec "val" [⟨"idx", true⟩]
        ⟨.intDomain .int32, ⟨none⟩⟩ =
      .error (.typeError "object of type NoneType has no len") ∧
    SparseColumnRepresentation.as_feature_spec "val" [⟨"idx", true⟩]
        ⟨.intDomain .int32, ⟨none⟩⟩ ≠
      .error (.valueError
        "tf.Example parser supports only 1-d sparse features.") := by
  exact ⟨rfl, by decide⟩

/-- C4 (amended): `SparseColumnRepresentation.as_feature_spec` succeeds
exactly on one index field and one axis, carrying the index name, value
field, dtype, axis size and sortedness; with one index field but absent
axes it raises a TypeError; every other input raises the 1-d-sparse
ValueError. -/
theorem sparse_as_feature_spec_characterization (value_field_name : String)
    (index_fields : List SparseIndexField) (l : LogicalColumnSchema) :
    SparseColumnRepresentation.as_feature_spec value_field_name index_fields l =
      match index_fields, l.shape.axes with
      | [index], some [axis] =>
          .ok (.sparseFeature index.name value_field_name l.domain.dtype
            axis.size index.is_sorted)
      | [_], none => .error (.typeError "object of type NoneType has no len")
      | _, _ =>
          .error (.valueError
            "tf.Example parser supports only 1-d sparse features.") := by
  unfold SparseColumnRepresentation.as_feature_spec
  cases index_fields with
  | nil => simp
  | cons i rest =>
    cases rest with
    | cons j rest2 => simp
    | nil =>
      cases hax : l.shape.axes with
      | none => simp
      | some axes =>
        cases axes with
        | nil => simp
        | cons a arest =>
          cases arest with
          | nil => simp
          | cons b more => simp

/-- C3: `FixedColumnRepresentation.as_feature_spec` fails with the
unknown-size ValueError exactly when the shape is not fixed-size (axes
absent or some axis size unknown); on a fixed-size shape it succeeds with
a dense descriptor carrying the shape, the domain's dtype and the default
value. -/
theorem fixed_as_feature_spec_characterization
    (default_value : Option PyValue) (l : LogicalColumnSchema) :
    FixedColumnRepresentation.as_feature_spec default_value l =
      if l.shape.axes = none ∨ ∃ ax ∈ l.shape.axes.getD [], ax.size = none then
        .error (.valueError
          "A column of unknown size cannot be represented as fixed-size.")
      else
        .ok (.fixedLenFeature ((l.shape.axes.getD []).map Axis.size)
          l.domain.dtype default_value) := by
  unfold FixedColumnRepresentation.as_feature_spec LogicalShape.is_fixed_size
  unfold LogicalShape.tf_shape_as_list LogicalShape.tf_shape
  cases h : l.shape.axes with
  | none => simp
  | some axes =>
    by_cases hex : ∃ ax ∈ axes, ax.size = none
    · have hall : ¬ (axes.all fun axis => axis.size.isSome) = true := by
        simp only [List.all_eq_true]
        intro hall
        obtain ⟨ax, hmem, hnone⟩ := hex
        have := hall ax hmem
        rw [hnone] at this
        simp at this
      simp [hall, hex]
    · have hall : (axes.all fun axis => axis.size.isSome) = true := by
        simp only [List.all_eq_true]
        intro ax hmem
        rcases h2 : ax.size with _ | n
        · exact absurd ⟨ax, hmem, h2⟩ hex
        · simp
      simp [hall, hex]

/-- Association-list lookup distributes over append, preferring the left
list: the model of updating a dict with fresh keys. -/
theorem assoc_lookup_append {β : Type} (k : String)
    (l1 l2 : List (String × β)) :
    (l1 ++ l2).lookup k = (l1.lookup k).or (l2.lookup k) := by
  induction l1 with
  | nil => simp [List.lookup]
  | cons kv t ih =>
    obtain ⟨a, b⟩ := kv
    simp only [List.cons_append, List.lookup]
    cases h : (k == a) <;> simp [ih]

/-- Association-list lookup misses exactly the keys outside the key list. -/
theorem assoc_lookup_eq_none_iff {β : Type} (k : String)
    (l : List (String × β)) :
    l.lookup k = none ↔ k ∉ l.map Prod.fst := by
  induction l with
  | nil => simp [List.lookup]
  | cons kv t ih =>
    obtain ⟨a, b⟩ := kv
    simp only [List.lookup, List.map_cons, List.mem_cons]
    cases h : (k == a) with
    | true =>
      have : k = a := beq_iff_eq.mp h
      simp [this]
    | false =>
      have : ¬ k = a := by
        intro he
        rw [he] at h
        simp at h
      simp [ih, this]

/-- The merge loop over fresh keys only: every key of `other` absent from
the accumulator (and no internal duplicates) makes the loop append all of
`other` in order. -/
theorem mergeGo_disjoint (l : List (String × ColumnSchema)) :
    ∀ acc, (l.map Prod.fst).Nodup →
    (∀ k ∈ l.map Prod.fst, acc.lookup k = none) →
    Schema.mergeGo acc l = .ok (acc ++ l) := by
  induction l with
  | nil => intro acc _ _; simp [Schema.mergeGo]
  | cons kv rest ih =>
    intro acc hnd hnone
    obtain ⟨key, value⟩ := kv
    simp only [Schema.mergeGo]
    rw [hnone key (by simp)]
    rw [ih (acc ++ [(key, value)]) (by simpa using hnd.of_cons) ?_]
    · simp
    · intro k hk
      rw [assoc_lookup_append]
      rw [hnone k (by simp [hk])]
      have hne : ¬ k = key := by
        intro he
        rw [List.map_cons] at hnd
        have := List.Nodup.not_mem hnd
        rw [← he] at this
        exact this hk
      simp [List.lookup, beq_eq_false_iff_ne.mpr hne]

/-- The merge loop errors as soon as it meets a key already present: the
accumulator always contains `k`, and `k` occurs among the pending keys. -/
theorem mergeGo_error_of_shared (l : List (String × ColumnSchema)) :
    ∀ acc k, (acc.lookup k).isSome → k ∈ l.map Prod.fst →
    Schema.mergeGo acc l =
      .error (.notImplementedError "Merge not implemented yet.") := by
  induction l with
  | nil => intro acc k _ hk; simp at hk
  | cons kv rest ih =>
    intro acc k h hk
    obtain ⟨key, value⟩ := kv
    simp only [Schema.mergeGo]
    cases hl : acc.lookup key with
    | some existing => rfl
    | none =>
      have hne : ¬ k = key := by
        intro he
        rw [he] at h
        rw [hl] at h
        simp at h
      have hk2 : k ∈ rest.map Prod.fst := by
        rw [List.map_cons] at hk
        rcases List.mem_cons.mp hk with h1 | h2
        · exact absurd h1 hne
        · exact h2
      apply ih (acc ++ [(key, value)]) k ?_ hk2
      rw [assoc_lookup_append]
      cases hacc : acc.lookup k with
      | some v => simp
      | none => rw [hacc] at h; simp at h

/-- C5: merging two schemas with disjoint column-name sets succeeds and
yields the union of the two column mappings: the entries are those of the
first schema followed by those of the second, the size is the sum of the
two sizes, and every name looks up to the value it had in whichever input
contained it. -/
theorem schema_merge_disjoint (s1 s2 : Schema)
    (hnd : (s2.column_schemas.map Prod.fst).Nodup)
    (hdisj : ∀ k ∈ s1.column_schemas.map Prod.fst,
        k ∉ s2.column_schemas.map Prod.fst) :
    s1.merge s2 = .ok ⟨s1.column_schemas ++ s2.column_schemas⟩ ∧
    (s1.column_schemas ++ s2.column_schemas).length =
      s1.column_schemas.length + s2.column_schemas.length ∧
    ∀ k, (s1.column_schemas ++ s2.column_schemas).lookup k =
      (s1.column_schemas.lookup k).or (s2.column_schemas.lookup k) := by
  refine ⟨?_, List.length_append _ _, fun k => assoc_lookup_append k _ _⟩
  unfold Schema.merge
  rw [mergeGo_disjoint s2.column_schemas s1.column_schemas hnd ?_]
  · rfl
  · intro k hk
    rw [assoc_lookup_eq_none_iff]
    intro h1
    exact hdisj k h1 hk

theorem schema_merge_disjoint_witness :
    Schema.merge ⟨[("a", ⟨⟨.intDomain .int32, ⟨some [⟨some 2⟩]⟩⟩, .fixed none⟩)]⟩
        ⟨[("b", ⟨⟨.floatDomain .float32, ⟨some [⟨none⟩]⟩⟩, .list⟩)]⟩ =
      .ok ⟨[("a", ⟨⟨.intDomain .int32, ⟨some [⟨some 2⟩]⟩⟩, .fixed none⟩),
            ("b", ⟨⟨.floatDomain .float32, ⟨some [⟨none⟩]⟩⟩, .list⟩)]⟩ :=
  (schema_merge_disjoint
    ⟨[("a", ⟨⟨.intDomain .int32, ⟨some [⟨some 2⟩]⟩⟩, .fixed none⟩)]⟩
    ⟨[("b", ⟨⟨.floatDomain .float32, ⟨some [⟨none⟩]⟩⟩, .list⟩)]⟩
    (by decide) (by decide)).1

/-- C6: merging two schemas that share a column name fails loudly: the
loop reaches the shared name and raises (column-level merge being
unimplemented), rather than silently keeping, replacing or combining
either side's column schema. -/
theorem schema_merge_shared_name (s1 s2 : Schema) (k : String)
    (h1 : k ∈ s1.column_schemas.map Prod.fst)
    (h2 : k ∈ s2.column_schemas.map Prod.fst) :
    s1.merge s2 =
      .error (.notImplementedError "Merge not implemented yet.") := by
  unfold Schema.merge
  rw [mergeGo_error_of_shared s2.column_schemas s1.column_schemas k ?_ h2]
  · rfl
  · exact Option.ne_none_iff_isSome.mp
      ((not_congr (assoc_lookup_eq_none_iff k s1.column_schemas)).mpr
        (by simpa using h1))

theorem schema_merge_shared_name_witness :
    Schema.merge ⟨[("a", ⟨⟨.intDomain .int32, ⟨some [⟨some 2⟩]⟩⟩, .fixed none⟩)]⟩
        ⟨[("a", ⟨⟨.floatDomain .float32, ⟨some [⟨none⟩]⟩⟩, .list⟩)]⟩ =
      .error (.notImplementedError "Merge not implemented yet.") :=
  schema_merge_shared_name
    ⟨[("a", ⟨⟨.intDomain .int32, ⟨some [⟨some 2⟩]⟩⟩, .fixed none⟩)]⟩
    ⟨[("a", ⟨⟨.floatDomain .float32, ⟨some [⟨none⟩]⟩⟩, .list⟩)]⟩
    "a" (by decide) (by decide)

/-- Rebuilding axes from their sizes is the identity. -/
theorem axes_map_mk_size (axes : List Axis) :
    axes.map (fun a => Axis.mk a.size) = axes := by
  induction axes with
  | nil => rfl
  | cons a t ih => exact congrArg (List.cons a) ih

/-- One column survives the feature-spec round trip under the round-trip
precondition. -/
theorem column_round_trip (c : ColumnSchema)
    (h : c.round_trip_precond = true) :
    ∃ fs, c.as_feature_spec = .ok fs ∧ _from_parse_feature fs = .ok c := by
  obtain ⟨⟨domain, ⟨axes⟩⟩, rep⟩ := c
  rw [ColumnSchema.round_trip_precond, Bool.and_eq_true] at h
  have hdom : _dtype_to_domain domain.dtype = .ok domain :=
    of_decide_eq_true h.1
  cases rep with
  | fixed d =>
    have hfix : (LogicalShape.mk axes).is_fixed_size = true := h.2
    refine ⟨.fixedLenFeature ((LogicalShape.mk axes).tf_shape_as_list)
      domain.dtype d, ?_, ?_⟩
    · simp [ColumnSchema.as_feature_spec,
        FixedColumnRepresentation.as_feature_spec, hfix]
    · simp only [_from_parse_feature]
      rw [hdom]
      cases axes with
      | none => exact absurd hfix (by simp [LogicalShape.is_fixed_size])
      | some axes =>
        simp only [_tf_shape_to_logical_shape, LogicalShape.tf_shape_as_list,
          LogicalShape.tf_shape, Option.map_some', Option.getD_some,
          if_neg, Bool.false_eq_true, not_false_eq_true, List.map_map]
        have : axes.map (Axis.mk ∘ Axis.size) = axes := axes_map_mk_size axes
        rw [this]
  | list =>
    have hsh : LogicalShape.mk axes = ⟨some [⟨none⟩]⟩ := of_decide_eq_true h.2
    refine ⟨.varLenFeature domain.dtype, rfl, ?_⟩
    simp only [_from_parse_feature]
    rw [hdom, ← hsh]
  | sparse v ind =>
    have hsp := h.2
    rw [ColumnRepresentation.shape_precond, Bool.and_eq_true,
      Bool.and_eq_true] at hsp
    have hlen : ind.length = 1 := of_decide_eq_true hsp.1.1
    obtain ⟨i, hind⟩ := List.length_eq_one.mp hlen
    subst hind
    cases axes with
    | none => simp at hsp
    | some l =>
      have hl : l.length = 1 := of_decide_eq_true (by simpa using hsp.2)
      obtain ⟨a, hla⟩ := List.length_eq_one.mp hl
      subst hla
      refine ⟨.sparseFeature i.name v domain.dtype a.size i.is_sorted,
        ?_, ?_⟩
      · simp [ColumnSchema.as_feature_spec,
          SparseColumnRepresentation.as_feature_spec]
      · simp only [_from_parse_feature]
        rw [hdom]

/-- Entry lists survive the feature-spec round trip columnwise. -/
theorem entries_round_trip (l : List (String × ColumnSchema))
    (h : ∀ kc ∈ l, kc.2.round_trip_precond = true) :
    ∃ fsl, Schema.featureSpecEntries l = .ok fsl ∧
      fromFeatureSpecEntries fsl = .ok l := by
  induction l with
  | nil => exact ⟨[], rfl, rfl⟩
  | cons kc rest ih =>
    obtain ⟨k, c⟩ := kc
    obtain ⟨fs, hfs, hback⟩ := column_round_trip c (h (k, c) (by simp))
    obtain ⟨fsl, hfsl, hbackl⟩ :=
      ih (fun x hx => h x (List.mem_cons_of_mem _ hx))
    refine ⟨(k, fs) :: fsl, ?_, ?_⟩
    · simp only [Schema.featureSpecEntries]
      rw [hfs, hfsl]
    · simp only [fromFeatureSpecEntries]
      rw [hback, hbackl]

/-- C1 counterexample: a schema containing a List column with a known
axis size satisfies the claim's stated preconditions (it has no Fixed and
no Sparse column), yet the round trip rebuilds the column with the single
unknown axis, so the result differs from the original schema. -/
theorem schema_round_trip_cex :
    Except.bind
      (Schema.as_feature_spec
        ⟨[("c", ⟨⟨.floatDomain .float32, ⟨some [⟨some 5⟩]⟩⟩, .list⟩)]⟩)
      from_feature_spec =
      .ok ⟨[("c", ⟨⟨.floatDomain .float32, ⟨some [⟨none⟩]⟩⟩, .list⟩)]⟩ ∧
    Except.bind
      (Schema.as_feature_spec
        ⟨[("c", ⟨⟨.floatDomain .float32, ⟨some [⟨some 5⟩]⟩⟩, .list⟩)]⟩)
      from_feature_spec ≠
      .ok ⟨[("c", ⟨⟨.floatDomain .float32, ⟨some [⟨some 5⟩]⟩⟩, .list⟩)]⟩ := by
  exact ⟨rfl, by decide⟩

/-- C1 (amended): for every schema whose columns satisfy the round-trip
precondition (domain rebuilt by `_dtype_to_domain` from its dtype;
fixed-size shape for Fixed, the single unknown axis for List, one index
field and one axis for Sparse), converting with `Schema.as_feature_spec`
and back with `from_feature_spec` returns the original schema. -/
theorem schema_round_trip (s : Schema)
    (h : ∀ kc ∈ s.column_schemas, kc.2.round_trip_precond = true) :
    Except.bind s.as_feature_spec from_feature_spec = .ok s := by
  obtain ⟨fsl, hfsl, hback⟩ := entries_round_trip s.column_schemas h
  show Except.bind (Schema.featureSpecEntries s.column_schemas)
    from_feature_spec = .ok s
  rw [hfsl]
  show from_feature_spec fsl = .ok s
  unfold from_feature_spec
  rw [hback]
  rfl

theorem schema_round_trip_witness :
    Except.bind
      (Schema.as_feature_spec
        ⟨[("a", ⟨⟨.intDomain .int32, ⟨some [⟨some 2⟩]⟩⟩, .fixed none⟩),
          ("b", ⟨⟨.floatDomain .float32, ⟨some [⟨none⟩]⟩⟩, .list⟩),
          ("c", ⟨⟨.stringDomain .string, ⟨some [⟨some 4⟩]⟩⟩,
            .sparse "vals" [⟨"idx", true⟩]⟩)]⟩)
      from_feature_spec =
      .ok ⟨[("a", ⟨⟨.intDomain .int32, ⟨some [⟨some 2⟩]⟩⟩, .fixed none⟩),
            ("b", ⟨⟨.floatDomain .float32, ⟨some [⟨none⟩]⟩⟩, .list⟩),
            ("c", ⟨⟨.stringDomain .string, ⟨some [⟨some 4⟩]⟩⟩,
              .sparse "vals" [⟨"idx", true⟩]⟩)]⟩ :=
  schema_round_trip
    ⟨[("a", ⟨⟨.intDomain .int32, ⟨some [⟨some 2⟩]⟩⟩, .fixed none⟩),
      ("b", ⟨⟨.floatDomain .float32, ⟨some [⟨none⟩]⟩⟩, .list⟩),
      ("c", ⟨⟨.stringDomain .string, ⟨some [⟨some 4⟩]⟩⟩,
        .sparse "vals" [⟨"idx", true⟩]⟩)]⟩
    (by decide)
